import Mathlib

/-!
Shallow embedding of the live submission-queue subsystem of the eQueue
backend (FastAPI + SQLAlchemy), covering:

* the data model rows `Queue`, `QueueMember`, `Subject`, `WorkspaceMember`,
  `Task`, `Submission` (src/app/core/models/entities.py);
* the CRUD operations on queues and queue members
  (src/app/crud/queues.py, src/app/crud/queue_members.py,
  src/app/crud/submissions.py, src/app/crud/tasks.py,
  src/app/crud/workspace_members.py, src/app/crud/subjects.py);
* the websocket connection manager and its broadcast loop
  (src/app/api/queue_websocket.py).

The database is a record of row lists; each Python CRUD function becomes a
pure function from the database (plus arguments) to `Except` of either an
error together with the database at raise time, or the result together with
the updated database.  Python exceptions become constructors of `ApiError`;
the HTTP status each one is translated to is taken from
src/app/core/exceptions/register_exceptions_handlers.py.
-/

namespace EQueue

/-- Row of table `queues` (entities.py, class Queue): autoincrement `id`,
unique `subject_id`, policy flag `members_can_freeze`. -/
structure Queue where
  id : Nat
  subject_id : Nat
  members_can_freeze : Bool
deriving DecidableEq, Repr

/-- Row of table `queue_members` (entities.py, class QueueMember):
`user_id`, `queue_id`, `entered_at` (timestamp, abstracted to `Nat`),
`position`, `status` (a string; the live values are "active"/"frozen"). -/
structure QueueMember where
  user_id : Nat
  queue_id : Nat
  position : Nat
  status : String
  entered_at : Nat
deriving DecidableEq, Repr

/-- Row of table `subjects` (entities.py, class Subject); only the fields the
queue subsystem reads are kept: `id` and owning `workspace_id`. -/
structure Subject where
  id : Nat
  workspace_id : Nat
deriving DecidableEq, Repr

/-- Row of table `workspace_members` (entities.py, class WorkspaceMember);
fields the authorization checks read: `user_id`, `workspace_id`, `is_admin`. -/
structure WorkspaceMember where
  user_id : Nat
  workspace_id : Nat
  is_admin : Bool
deriving DecidableEq, Repr

/-- Row of table `tasks` (entities.py, class Task); fields the leave-and-mark
path reads: `id` and `subject_id`. -/
structure Task where
  id : Nat
  subject_id : Nat
deriving DecidableEq, Repr

/-- Row of table `submissions` (entities.py, class Submission); fields set by
`create_submission`: `user_id` and `task_id`. -/
structure Submission where
  user_id : Nat
  task_id : Nat
deriving DecidableEq, Repr

/-- The relational store: one list per table, plus `now` (the timestamp the
store would assign as the `entered_at` column default) and `queue_id_seq`
(the autoincrement sequence backing `queues.id`). -/
structure DB where
  queues : List Queue
  queue_members : List QueueMember
  subjects : List Subject
  workspace_members : List WorkspaceMember
  tasks : List Task
  submissions : List Submission
  now : Nat
  queue_id_seq : Nat
deriving DecidableEq, Repr

/-- The application exceptions raised on the paths embedded here
(core/exceptions): `ForeignKeyViolationException`, `NoEntityFoundException`,
`UniqueConstraintViolationException`, `UserIsNotWorkspaceAdminException`
(the latter is raised both by the admin check and by the membership check in
crud/workspace_members.py). -/
inductive ApiError where
  | foreignKeyViolation
  | noEntityFound
  | uniqueConstraintViolation
  | userIsNotWorkspaceAdmin
deriving DecidableEq, Repr

/-- HTTP status each exception is translated to by the handlers registered in
core/exceptions/register_exceptions_handlers.py: unique-constraint → 409
Conflict, no-entity → 404 Not Found, foreign-key → 409, workspace
admin/membership violation → 403 Forbidden. -/
def httpStatus : ApiError → Nat
  | .foreignKeyViolation => 409
  | .noEntityFound => 404
  | .uniqueConstraintViolation => 409
  | .userIsNotWorkspaceAdmin => 403

/-- Result of a CRUD call: on error, the exception together with the store as
committed at raise time; on success, the value with the updated store. -/
abbrev CrudResult (α : Type) := Except (ApiError × DB) (α × DB)

/-- Outcome discriminator (an `Except.isOk` analogue) used in statements about call outcomes. -/
def crudOk {α : Type} : CrudResult α → Bool
  | .ok _ => true
  | .error _ => false

-- --- Read helpers (crud/*.py selects; `one_or_none`/`first` become `find?`) ---

/-- crud/queues.py `get_queue_by_id`: `session.get(Queue, queue_id)`. -/
def get_queue_by_id (db : DB) (queue_id : Nat) : Option Queue :=
  db.queues.find? (fun q => q.id == queue_id)

/-- crud/subjects.py `get_subject_by_id` (plain fetch, no flags):
`session.get(Subject, subject_id)`. -/
def get_subject_by_id (db : DB) (subject_id : Nat) : Option Subject :=
  db.subjects.find? (fun s => s.id == subject_id)

/-- crud/workspace_members.py
`get_workspace_member_by_user_id_and_workspace_id`. -/
def get_workspace_member_by_user_id_and_workspace_id
    (db : DB) (user_id workspace_id : Nat) : Option WorkspaceMember :=
  db.workspace_members.find?
    (fun w => w.user_id == user_id && w.workspace_id == workspace_id)

/-- crud/queue_members.py `get_queue_member_by_user_id_and_queue_id`
(the row-returning select; the raise-vs-None flag is handled at call sites). -/
def get_queue_member_by_user_id_and_queue_id
    (db : DB) (user_id queue_id : Nat) : Option QueueMember :=
  db.queue_members.find?
    (fun m => m.user_id == user_id && m.queue_id == queue_id)

/-- crud/queue_members.py `get_queue_members_by_queue_id`: all rows of the
queue, unordered. -/
def get_queue_members_by_queue_id (db : DB) (queue_id : Nat) : List QueueMember :=
  db.queue_members.filter (fun m => m.queue_id == queue_id)

/-- crud/tasks.py `get_task_by_id` (plain fetch): `session.get(Task, task_id)`. -/
def get_task_by_id (db : DB) (task_id : Nat) : Option Task :=
  db.tasks.find? (fun t => t.id == task_id)

/-- crud/tasks.py `get_tasks_by_subject_id` select (the membership check
branch is skipped by the leave-and-mark caller, which passes no user). -/
def get_tasks_by_subject_id (db : DB) (subject_id : Nat) : List Task :=
  db.tasks.filter (fun t => t.subject_id == subject_id)

/-- crud/submissions.py `get_submission_by_user_id_and_task_id`. -/
def get_submission_by_user_id_and_task_id
    (db : DB) (user_id task_id : Nat) : Option Submission :=
  db.submissions.find?
    (fun s => s.user_id == user_id && s.task_id == task_id)

-- --- Authorization / constraint checks ---

/-- crud/workspace_members.py `check_if_user_is_workspace_member`: raises
`UserIsNotWorkspaceAdminException` (sic) when no membership row exists. -/
def check_if_user_is_workspace_member
    (db : DB) (user_id workspace_id : Nat) : Except ApiError Unit :=
  if (get_workspace_member_by_user_id_and_workspace_id db user_id workspace_id).isSome
  then .ok () else .error .userIsNotWorkspaceAdmin

/-- crud/workspace_members.py `check_if_user_is_workspace_admin`: raises
`UserIsNotWorkspaceAdminException` when no membership row exists or the row
has `is_admin = false`. -/
def check_if_user_is_workspace_admin
    (db : DB) (user_id workspace_id : Nat) : Except ApiError Unit :=
  match get_workspace_member_by_user_id_and_workspace_id db user_id workspace_id with
  | none => .error .userIsNotWorkspaceAdmin
  | some w => if w.is_admin then .ok () else .error .userIsNotWorkspaceAdmin

/-- crud/tasks.py `check_if_user_is_permitted_to_get_tasks`: fetch the
subject with `constraint_check=False` (`NoEntityFoundException` when absent)
and `check_membership=True`, which runs the workspace-membership check
against the subject's workspace. -/
def check_if_user_is_permitted_to_get_tasks
    (db : DB) (subject_id user_id : Nat) : Except ApiError Unit :=
  match get_subject_by_id db subject_id with
  | none => .error .noEntityFound
  | some subj => check_if_user_is_workspace_member db user_id subj.workspace_id

/-- crud/tasks.py `check_if_user_is_permitted_to_modify_tasks`: fetch the
subject with `constraint_check=False`, then run the workspace-admin check
against the subject's workspace. -/
def check_if_user_is_permitted_to_modify_tasks
    (db : DB) (subject_id user_id : Nat) : Except ApiError Unit :=
  match get_subject_by_id db subject_id with
  | none => .error .noEntityFound
  | some subj => check_if_user_is_workspace_admin db user_id subj.workspace_id

/-- crud/queue_members.py `check_complex_unique_user_id_queue_id`: raises
`UniqueConstraintViolationException` when a `(user_id, queue_id)` row exists. -/
def check_complex_unique_user_id_queue_id
    (db : DB) (user_id queue_id : Nat) : Except ApiError Unit :=
  if (get_queue_member_by_user_id_and_queue_id db user_id queue_id).isSome
  then .error .uniqueConstraintViolation else .ok ()

-- --- Positions ---

/-- The `position` column of the members of one queue, in row order. -/
def queue_positions (db : DB) (queue_id : Nat) : List Nat :=
  (db.queue_members.filter (fun m => m.queue_id == queue_id)).map
    (fun m => m.position)

/-- crud/queue_members.py `_get_next_position_in_queue_by_queue_id`: the
query selects `position` of the queue's members ordered descending and takes
the first row, i.e. the column maximum; the function returns `0` when the
queue is empty and `last + 1` otherwise.  The ORDER BY DESC / `.first()`
combination is embedded as `List.max?`. -/
def get_next_position_in_queue_by_queue_id (db : DB) (queue_id : Nat) : Nat :=
  match (queue_positions db queue_id).max? with
  | none => 0
  | some last => last + 1

-- --- Queue member operations (crud/queue_members.py) ---

/-- crud/queue_members.py `create_queue_member`: check the `queue_id` foreign
key, check that the caller is a workspace member of the queue's subject's
workspace, check `(user_id, queue_id)` uniqueness, then insert a row with the
next position, status `"active"` and the store-assigned `entered_at`, and
commit. -/
def create_queue_member (db : DB) (current_user_id queue_id : Nat) :
    CrudResult QueueMember :=
  match get_queue_by_id db queue_id with
  | none => .error (.foreignKeyViolation, db)
  | some queue =>
    match check_if_user_is_permitted_to_get_tasks db queue.subject_id current_user_id with
    | .error e => .error (e, db)
    | .ok () =>
      match check_complex_unique_user_id_queue_id db current_user_id queue_id with
      | .error e => .error (e, db)
      | .ok () =>
        let qm : QueueMember :=
          { user_id := current_user_id
            queue_id := queue_id
            position := get_next_position_in_queue_by_queue_id db queue_id
            status := "active"
            entered_at := db.now }
        .ok (qm, { db with queue_members := db.queue_members ++ [qm] })

/-- crud/queue_members.py `complex_queue_member_check`: foreign-key check on
`queue_id`, membership check against the queue's subject's workspace, then
fetch of the caller's member row (`NoEntityFoundException` when absent). -/
def complex_queue_member_check (db : DB) (current_user_id queue_id : Nat) :
    Except ApiError QueueMember :=
  match get_queue_by_id db queue_id with
  | none => .error .foreignKeyViolation
  | some queue =>
    match check_if_user_is_permitted_to_get_tasks db queue.subject_id current_user_id with
    | .error e => .error e
    | .ok () =>
      match get_queue_member_by_user_id_and_queue_id db current_user_id queue_id with
      | none => .error .noEntityFound
      | some qm => .ok qm

/-- crud/queue_members.py `switch_queue_member_status_by_user_id_and_queue_id`:
after `complex_queue_member_check`, set the member's status to `"active"`
when it currently is `"frozen"` and to `"frozen"` otherwise, and commit. -/
def switch_queue_member_status_by_user_id_and_queue_id
    (db : DB) (current_user_id queue_id : Nat) : CrudResult QueueMember :=
  match complex_queue_member_check db current_user_id queue_id with
  | .error e => .error (e, db)
  | .ok qm =>
    let new_status : String := if qm.status == "frozen" then "active" else "frozen"
    let qm' := { qm with status := new_status }
    .ok (qm', { db with queue_members :=
      db.queue_members.map (fun x =>
        if x.user_id == current_user_id && x.queue_id == queue_id
        then { x with status := new_status } else x) })

/-- The per-row renumbering applied after a leave: members of the queue with
a position greater than the removed member's have it decremented by one;
every other row is untouched. -/
def renumber_row (queue_id removed_pos : Nat) (x : QueueMember) : QueueMember :=
  if x.queue_id == queue_id && removed_pos < x.position
  then { x with position := x.position - 1 } else x

/-- The store right after the first commit of `leave_queue_by_user_id_and_queue_id`
(line 357 of crud/queue_members.py): the member row deleted, nothing else. -/
def leave_delete_db (db : DB) (qm : QueueMember) : DB :=
  { db with queue_members := db.queue_members.erase qm }

/-- The store right after the second commit (line 367): trailing members of
the queue decremented. -/
def leave_renumber_db (db : DB) (queue_id removed_pos : Nat) : DB :=
  { db with queue_members := db.queue_members.map (renumber_row queue_id removed_pos) }

/-- crud/submissions.py `check_if_user_is_permitted_to_get_submissions`:
fetch the task with `constraint_check=False` and `check_membership=True`,
which runs the membership check for the task's subject's workspace. -/
def check_if_user_is_permitted_to_get_submissions
    (db : DB) (task_id user_id : Nat) : Except ApiError Unit :=
  match get_task_by_id db task_id with
  | none => .error .noEntityFound
  | some task => check_if_user_is_permitted_to_get_tasks db task.subject_id user_id

/-- crud/submissions.py `create_submission`: the membership/task check, the
`(user_id, task_id)` uniqueness check, then insert and commit. -/
def create_submission (db : DB) (task_id current_user_id : Nat) :
    CrudResult Submission :=
  match check_if_user_is_permitted_to_get_submissions db task_id current_user_id with
  | .error e => .error (e, db)
  | .ok () =>
    if (get_submission_by_user_id_and_task_id db current_user_id task_id).isSome
    then .error (.uniqueConstraintViolation, db)
    else
      let sub : Submission := { user_id := current_user_id, task_id := task_id }
      .ok (sub, { db with submissions := db.submissions ++ [sub] })

/-- The leave-and-mark loop of `leave_queue_by_user_id_and_queue_id`
(lines 387-398): walk the tasks in the sorted order, skip each task the user
already has a submission for, call `create_submission` on the first one
without and stop.  Returns `some` of the store committed by that call, or
`none` when every task was already submitted (no further commit). -/
def mark_first_unsubmitted (db : DB) (user_id : Nat) :
    List Task → Except (ApiError × DB) (Option DB)
  | [] => .ok none
  | t :: ts =>
    if (get_submission_by_user_id_and_task_id db user_id t.id).isSome
    then mark_first_unsubmitted db user_id ts
    else
      match create_submission db t.id user_id with
      | .error e => .error e
      | .ok (_, db') => .ok (some db')

/-- Embedding of `tasks.sort(key=lambda t: t.id)` (line 384): sort ascending by task id
(embedded as insertion sort; `tasks.id` is the primary key, so the ids are
distinct and every sort by id produces the same list). -/
def sort_tasks_by_id (tasks : List Task) : List Task :=
  List.insertionSort (fun a b => a.id ≤ b.id) tasks

/-- crud/queue_members.py `leave_queue_by_user_id_and_queue_id`:
`complex_queue_member_check`, then — each followed by its own
`session.commit()` — (a) delete the member row, (b) decrement the position of
every remaining member of the queue whose position exceeds the removed one's,
and, when `leave_and_mark` is set, (c) create a submission for the first
task (by ascending id) of the queue's subject the user has not submitted.
Returns the removed row. -/
def leave_queue_by_user_id_and_queue_id
    (db : DB) (current_user_id queue_id : Nat) (leave_and_mark : Bool) :
    CrudResult QueueMember :=
  match complex_queue_member_check db current_user_id queue_id with
  | .error e => .error (e, db)
  | .ok qm =>
    let db1 := leave_delete_db db qm
    let db2 := leave_renumber_db db1 queue_id qm.position
    if leave_and_mark then
      match get_queue_by_id db2 queue_id with
      | none => .error (.noEntityFound, db2)  -- unreachable: queues are untouched
      | some queue =>
        let tasks := sort_tasks_by_id (get_tasks_by_subject_id db2 queue.subject_id)
        match mark_first_unsubmitted db2 current_user_id tasks with
        | .error e => .error e
        | .ok odb => .ok (qm, odb.getD db2)
    else
      .ok (qm, db2)

/-- The sequence of stores committed by one successful run of
`leave_queue_by_user_id_and_queue_id`, in commit order: the post-delete
store, the post-renumber store, and — only when the leave-and-mark loop
actually created a submission — the post-insert store. -/
def leave_queue_committed_states
    (db : DB) (current_user_id queue_id : Nat) (leave_and_mark : Bool) :
    Except (ApiError × DB) (List DB) :=
  match complex_queue_member_check db current_user_id queue_id with
  | .error e => .error (e, db)
  | .ok qm =>
    let db1 := leave_delete_db db qm
    let db2 := leave_renumber_db db1 queue_id qm.position
    if leave_and_mark then
      match get_queue_by_id db2 queue_id with
      | none => .error (.noEntityFound, db2)
      | some queue =>
        let tasks := sort_tasks_by_id (get_tasks_by_subject_id db2 queue.subject_id)
        match mark_first_unsubmitted db2 current_user_id tasks with
        | .error e => .error e
        | .ok none => .ok [db1, db2]
        | .ok (some db3) => .ok [db1, db2, db3]
    else
      .ok [db1, db2]

-- --- Queue operations (crud/queues.py) ---

/-- core/schemas/queues.py `QueueCreate`: `subject_id` plus the
`members_can_freeze` flag. -/
structure QueueCreate where
  subject_id : Nat
  members_can_freeze : Bool
deriving DecidableEq, Repr

/-- core/schemas/queues.py `QueueUpdate`: optional `members_can_freeze`
(`model_dump(exclude_unset=True)` drops an unset field). -/
structure QueueUpdate where
  members_can_freeze : Option Bool
deriving DecidableEq, Repr

/-- crud/queues.py `create_queue`: check the `subject_id` foreign key, check
that the caller is a workspace member of the subject's workspace (the code
reuses `check_if_user_is_permitted_to_get_tasks`; there is no admin check),
check `subject_id` uniqueness among queues, then insert and commit. -/
def create_queue (db : DB) (current_user_id : Nat) (queue_in : QueueCreate) :
    CrudResult Queue :=
  match get_subject_by_id db queue_in.subject_id with
  | none => .error (.foreignKeyViolation, db)
  | some _ =>
    match check_if_user_is_permitted_to_get_tasks db queue_in.subject_id current_user_id with
    | .error e => .error (e, db)
    | .ok () =>
      if (db.queues.find? (fun q => q.subject_id == queue_in.subject_id)).isSome
      then .error (.uniqueConstraintViolation, db)
      else
        let q : Queue :=
          { id := db.queue_id_seq
            subject_id := queue_in.subject_id
            members_can_freeze := queue_in.members_can_freeze }
        .ok (q, { db with queues := db.queues ++ [q],
                          queue_id_seq := db.queue_id_seq + 1 })

/-- crud/queues.py `get_queue_by_subject_id` restricted to the flag
combination `constraint_check=False, check_admin=True` used by `update_queue`
and `delete_queue`: find the queue by `subject_id` (raise
`NoEntityFoundException` when absent), then run the workspace-admin check for
the subject's workspace. -/
def get_queue_by_subject_id_admin (db : DB) (subject_id user_id : Nat) :
    Except ApiError Queue :=
  match db.queues.find? (fun q => q.subject_id == subject_id) with
  | none => .error .noEntityFound
  | some queue =>
    match check_if_user_is_permitted_to_modify_tasks db subject_id user_id with
    | .error e => .error e
    | .ok () => .ok queue

/-- crud/queues.py `update_queue`: check the `subject_id` foreign key, fetch
the queue with the admin check, apply the set fields of the update model, and
commit. -/
def update_queue (db : DB) (queue_upd : QueueUpdate) (subject_id user_id : Nat) :
    CrudResult Queue :=
  match get_subject_by_id db subject_id with
  | none => .error (.foreignKeyViolation, db)
  | some _ =>
    match get_queue_by_subject_id_admin db subject_id user_id with
    | .error e => .error (e, db)
    | .ok queue =>
      let queue' :=
        match queue_upd.members_can_freeze with
        | none => queue
        | some b => { queue with members_can_freeze := b }
      let db' :=
        { db with queues :=
            db.queues.map (fun q => if q.id == queue.id then queue' else q) }
      .ok (queue', db')

/-- crud/queues.py `delete_queue`: the same checks as `update_queue`, then
delete the queue row and commit; the `queue_members.queue_id` foreign key
cascades, removing the queue's member rows. -/
def delete_queue (db : DB) (subject_id user_id : Nat) : CrudResult Queue :=
  match get_subject_by_id db subject_id with
  | none => .error (.foreignKeyViolation, db)
  | some _ =>
    match get_queue_by_subject_id_admin db subject_id user_id with
    | .error e => .error (e, db)
    | .ok queue =>
      .ok (queue, { db with
        queues := db.queues.erase queue,
        queue_members := db.queue_members.filter (fun m => m.queue_id != queue.id) })

-- --- Websocket connection manager (api/queue_websocket.py) ---

/-- A websocket connection: an identity, and whether `send_text` on it
succeeds (`alive = false` models an already-disconnected socket whose send
raises). -/
structure Conn where
  id : Nat
  alive : Bool
deriving DecidableEq, Repr

/-- The field `ConnectionManager.active_connections`: a mapping from queue id to the
list of connections viewing that queue, embedded as an association list. -/
abbrev Registry := List (Nat × List Conn)

/-- Dictionary lookup `active_connections[queue_id]` / the
`queue_id in self.active_connections` test. -/
def registry_get (reg : Registry) (queue_id : Nat) : Option (List Conn) :=
  (reg.find? (fun p => p.1 == queue_id)).map (fun p => p.2)

/-- The method `ConnectionManager.connect`: create the entry when absent, then append
the connection to the queue's list. -/
def registry_connect (reg : Registry) (queue_id : Nat) (ws : Conn) : Registry :=
  match registry_get reg queue_id with
  | none => reg ++ [(queue_id, [ws])]
  | some _ => reg.map (fun p => if p.1 == queue_id then (p.1, p.2 ++ [ws]) else p)

/-- The authorization prefix of `websocket_endpoint` (api/queue_websocket.py
lines 110-138), after the token has been validated to user
`current_user_id`: the `queue_id` foreign-key check, the membership check
against the queue's subject's workspace, then `manager.connect`.  On error
the connection is refused before any registration. -/
def websocket_register (db : DB) (reg : Registry) (current_user_id queue_id : Nat)
    (ws : Conn) : Except ApiError Registry :=
  match get_queue_by_id db queue_id with
  | none => .error .foreignKeyViolation
  | some queue =>
    match check_if_user_is_permitted_to_get_tasks db queue.subject_id current_user_id with
    | .error e => .error e
    | .ok () => .ok (registry_connect reg queue_id ws)

/-- The loop body of `ConnectionManager.broadcast` over one queue's
connection list: each `connection.send_text(payload)` in order.  A send on a
dead connection raises, which aborts the loop; connections after it receive
nothing.  Returns the delivery log `(connection id, payload)` in order and
whether an exception escaped. -/
def broadcast_loop (payload : String) : List Conn → List (Nat × String) × Bool
  | [] => ([], false)
  | c :: cs =>
    if c.alive then
      let rest := broadcast_loop payload cs
      ((c.id, payload) :: rest.1, rest.2)
    else ([], true)

/-- The method `ConnectionManager.broadcast`: no-op when the queue id has no entry;
otherwise run the send loop over the registered connections. -/
def broadcast (reg : Registry) (payload : String) (queue_id : Nat) :
    List (Nat × String) × Bool :=
  match registry_get reg queue_id with
  | none => ([], false)
  | some conns => broadcast_loop payload conns

-- --- The contiguity invariant (spec §3/§8) ---

/-- A position list is contiguous and zero-based: as a multiset it equals
`{0, 1, ..., n-1}` for its length `n`, expressed through occurrence counts. -/
def contiguous (l : List Nat) : Prop :=
  ∀ k, l.count k = if k < l.length then 1 else 0

/-- Every queue's member positions are contiguous. -/
def db_contiguous (db : DB) : Prop :=
  ∀ queue_id, contiguous (queue_positions db queue_id)

/-- The renumbering map on a bare position list. -/
def renumberL (l : List Nat) (p : Nat) : List Nat :=
  l.map (fun x => if p < x then x - 1 else x)

-- --- Supporting lemmas: positions under the row transformations ---

theorem contiguous_nil : contiguous [] := by
  intro k
  simp [contiguous]

theorem contiguous_of_perm {l l' : List Nat} (h : l.Perm l') (hc : contiguous l) :
    contiguous l' := by
  intro k
  rw [← h.count_eq, ← h.length_eq]
  exact hc k

/-- How the renumbering map transforms one occurrence indicator. -/
theorem renumber_indicator (p k x : Nat) :
    (if (if p < x then x - 1 else x) = k then 1 else 0) =
      if k < p then (if x = k then 1 else 0)
      else if k = p then (if x = k + 1 then 1 else 0) + (if x = p then 1 else 0)
      else (if x = k + 1 then (1 : Nat) else 0) := by
  split_ifs <;> omega

/-- Occurrence counts after the renumbering map. -/
theorem count_renumberL (l : List Nat) (p k : Nat) :
    (renumberL l p).count k =
      if k < p then l.count k
      else if k = p then l.count (k + 1) + l.count p
      else l.count (k + 1) := by
  induction l with
  | nil => simp [renumberL]
  | cons x xs ih =>
    simp only [renumberL, List.map_cons, List.count_cons, beq_iff_eq] at ih ⊢
    rw [ih, renumber_indicator p k x]
    split_ifs <;> omega

/-- Deleting the member at position `p` from a contiguous queue and shifting
every greater position down by one restores contiguity. -/
theorem contiguous_erase_renumber {l l' : List Nat} {p : Nat}
    (hc : contiguous l) (hp : l.Perm (p :: l')) :
    contiguous (renumberL l' p) := by
  have hlen : l.length = l'.length + 1 := by simpa using hp.length_eq
  have hcnt : ∀ k, l.count k = l'.count k + if p = k then 1 else 0 := by
    intro k
    rw [hp.count_eq k, List.count_cons]
    simp [beq_iff_eq]
  intro k
  have hrl : (renumberL l' p).length = l'.length := List.length_map _ _
  rw [count_renumberL, hrl]
  have h1 := hcnt k
  have h2 := hcnt (k + 1)
  have h3 := hcnt p
  have g1 := hc k
  have g2 := hc (k + 1)
  have g3 := hc p
  split_ifs at h1 h2 h3 g1 g2 g3 ⊢ <;> omega

/-- Appending the next free position to a contiguous queue keeps it contiguous. -/
theorem contiguous_snoc {l : List Nat} (hc : contiguous l) :
    contiguous (l ++ [l.length]) := by
  intro k
  rw [List.count_append, List.length_append]
  have g := hc k
  have hone : List.count k [l.length] = if l.length = k then 1 else 0 := by
    simp [List.count_cons, beq_iff_eq]
  rw [hone]
  simp only [List.length_cons, List.length_nil]
  split_ifs at g ⊢ <;> omega

/-- Filtering one queue's rows commutes with a row map that does not touch
`queue_id`. -/
theorem positions_of_map_rows (rows : List QueueMember) (f : QueueMember → QueueMember)
    (hq : ∀ x, (f x).queue_id = x.queue_id) (q : Nat) :
    ((rows.map f).filter (fun m => m.queue_id == q)).map (fun m => m.position)
      = (rows.filter (fun m => m.queue_id == q)).map (fun m => (f m).position) := by
  rw [List.filter_map, List.map_map]
  have hpred : ((fun m => m.queue_id == q) ∘ f) = (fun m => m.queue_id == q) := by
    funext x
    simp [Function.comp, hq x]
  rw [hpred]
  rfl

/-- A row map that touches neither `queue_id` nor `position` leaves every
queue's position list unchanged. -/
theorem queue_positions_map_eq (db : DB) (f : QueueMember → QueueMember)
    (hq : ∀ x, (f x).queue_id = x.queue_id) (hp : ∀ x, (f x).position = x.position)
    (q : Nat) :
    queue_positions { db with queue_members := db.queue_members.map f } q
      = queue_positions db q := by
  show ((db.queue_members.map f).filter _).map _ = _
  rw [positions_of_map_rows _ f hq q]
  exact List.map_congr_left (fun a _ => hp a)

theorem renumber_row_queue_id (qid p : Nat) (x : QueueMember) :
    (renumber_row qid p x).queue_id = x.queue_id := by
  unfold renumber_row
  split <;> rfl

/-- Position lists after the renumbering commit: the target queue is mapped
through `renumberL`, every other queue is untouched. -/
theorem queue_positions_renumber_db (db : DB) (qid p q : Nat) :
    queue_positions (leave_renumber_db db qid p) q
      = if q = qid then renumberL (queue_positions db q) p else queue_positions db q := by
  show ((db.queue_members.map (renumber_row qid p)).filter _).map _ = _
  rw [positions_of_map_rows _ _ (renumber_row_queue_id qid p) q]
  by_cases hqq : q = qid
  · subst hqq
    rw [if_pos rfl]
    unfold renumberL queue_positions
    rw [List.map_map]
    refine List.map_congr_left ?_
    intro a ha
    have haq : a.queue_id = q := by
      have := List.of_mem_filter ha
      simpa [beq_iff_eq] using this
    simp only [Function.comp, renumber_row, haq]
    by_cases hlt : p < a.position <;> simp [hlt]
  · rw [if_neg hqq]
    refine List.map_congr_left ?_
    intro a ha
    have haq : a.queue_id = q := by
      have := List.of_mem_filter ha
      simpa [beq_iff_eq] using this
    unfold renumber_row
    rw [if_neg]
    simp [haq, hqq]

/-- Position lists after an insert at the tail. -/
theorem queue_positions_append (db : DB) (qm : QueueMember) (q : Nat) :
    queue_positions { db with queue_members := db.queue_members ++ [qm] } q
      = queue_positions db q ++ (if qm.queue_id == q then [qm.position] else []) := by
  show ((db.queue_members ++ [qm]).filter _).map _ = _
  rw [List.filter_append, List.map_append]
  congr 1
  by_cases h : qm.queue_id == q <;> simp [List.filter_cons, h]

/-- Position lists after the delete commit, as a permutation: the deleted
row's position is split off its queue, every other queue is untouched. -/
theorem queue_positions_delete_perm (db : DB) (qm : QueueMember)
    (hmem : qm ∈ db.queue_members) (q : Nat) :
    (queue_positions db q).Perm
      ((if qm.queue_id == q then [qm.position] else [])
        ++ queue_positions (leave_delete_db db qm) q) := by
  have h := List.perm_cons_erase hmem
  have h2 := (h.filter (fun m => m.queue_id == q)).map (fun m => m.position)
  by_cases hq : qm.queue_id == q
  · simpa [queue_positions, leave_delete_db, List.filter_cons, hq] using h2
  · simpa [queue_positions, leave_delete_db, List.filter_cons, hq] using h2

/-- In a contiguous nonempty position list the column maximum is `n - 1`. -/
theorem max?_of_contiguous {l : List Nat} (hc : contiguous l) (hne : l ≠ []) :
    l.max? = some (l.length - 1) := by
  match hmax : l.max? with
  | none => exact absurd (List.max?_eq_none_iff.mp hmax) hne
  | some a =>
    have hmem : a ∈ l := List.max?_mem (fun x y => max_choice x y) hmax
    have hlt : a < l.length := by
      have hpos : 0 < l.count a := List.count_pos_iff.mpr hmem
      have g := hc a
      by_contra hge
      rw [if_neg hge] at g
      omega
    have hlen : 0 < l.length := List.length_pos.mpr hne
    have hmem' : l.length - 1 ∈ l := by
      have g := hc (l.length - 1)
      rw [if_pos (by omega)] at g
      exact List.count_pos_iff.mp (by omega)
    have hle : l.length - 1 ≤ a :=
      (List.max?_le_iff (fun _ _ _ => Nat.max_le) hmax).mp (le_refl a)
        (l.length - 1) hmem'
    have : a = l.length - 1 := by omega
    rw [this]

/-- On a contiguous queue the next assigned position is the member count. -/
theorem next_position_eq_length {db : DB} {qid : Nat}
    (hc : contiguous (queue_positions db qid)) :
    get_next_position_in_queue_by_queue_id db qid = (queue_positions db qid).length := by
  unfold get_next_position_in_queue_by_queue_id
  match hmax : (queue_positions db qid).max? with
  | none =>
    have : queue_positions db qid = [] := List.max?_eq_none_iff.mp hmax
    simp [this]
  | some a =>
    have hne : queue_positions db qid ≠ [] := by
      intro h
      rw [h] at hmax
      simp at hmax
    rw [max?_of_contiguous hc hne] at hmax
    have hlen : 0 < (queue_positions db qid).length := List.length_pos.mpr hne
    have : a = (queue_positions db qid).length - 1 := by
      injection hmax with h
      omega
    simp only
    omega

-- --- Supporting lemmas: shape of a successful run ---

/-- A successful `create_submission` appends exactly the `(user, task)` row. -/
theorem create_submission_ok {db : DB} {task_id uid : Nat} {sub : Submission} {db' : DB}
    (h : create_submission db task_id uid = .ok (sub, db')) :
    sub = { user_id := uid, task_id := task_id } ∧
    db' = { db with submissions := db.submissions ++ [sub] } ∧
    (get_submission_by_user_id_and_task_id db uid task_id).isNone := by
  unfold create_submission at h
  match hch : check_if_user_is_permitted_to_get_submissions db task_id uid with
  | .error e => rw [hch] at h; exact absurd h (by simp)
  | .ok () =>
    rw [hch] at h
    by_cases hdup : (get_submission_by_user_id_and_task_id db uid task_id).isSome
    · rw [if_pos hdup] at h
      exact absurd h (by simp)
    · rw [if_neg hdup] at h
      injection h with h
      injection h with h1 h2
      subst h1
      exact ⟨rfl, h2.symm, by simpa using hdup⟩

/-- Specification of the leave-and-mark loop on a success run: either every
walked task already had a submission and no commit happened, or the walked
list splits around the first unsubmitted task, for which exactly one
submission row was appended and committed. -/
theorem mark_first_unsubmitted_spec (uid : Nat) (ts : List Task) (db : DB)
    (odb : Option DB) (h : mark_first_unsubmitted db uid ts = .ok odb) :
    (odb = none ∧ ∀ t ∈ ts, (get_submission_by_user_id_and_task_id db uid t.id).isSome) ∨
    (∃ t l₁ l₂, ts = l₁ ++ t :: l₂ ∧
      (∀ t' ∈ l₁, (get_submission_by_user_id_and_task_id db uid t'.id).isSome) ∧
      (get_submission_by_user_id_and_task_id db uid t.id).isNone ∧
      odb = some { db with submissions :=
        db.submissions ++ [{ user_id := uid, task_id := t.id }] }) := by
  induction ts with
  | nil =>
    left
    unfold mark_first_unsubmitted at h
    injection h with h
    exact ⟨h.symm, by simp⟩
  | cons t ts ih =>
    unfold mark_first_unsubmitted at h
    by_cases hsub : (get_submission_by_user_id_and_task_id db uid t.id).isSome
    · rw [if_pos hsub] at h
      rcases ih h with ⟨hnone, hall⟩ | ⟨t', l₁, l₂, hsplit, hl₁, hun, hdb⟩
      · left
        refine ⟨hnone, ?_⟩
        intro x hx
        rcases List.mem_cons.mp hx with hx | hx
        · rw [hx]; exact hsub
        · exact hall x hx
      · right
        exact ⟨t', t :: l₁, l₂, by rw [hsplit]; rfl, by
          intro x hx
          rcases List.mem_cons.mp hx with hx | hx
          · rw [hx]; exact hsub
          · exact hl₁ x hx, hun, hdb⟩
    · rw [if_neg hsub] at h
      right
      match hcr : create_submission db t.id uid with
      | .error e => rw [hcr] at h; exact absurd h (by simp)
      | .ok (sub, db2) =>
        rw [hcr] at h
        injection h with h
        rcases create_submission_ok hcr with ⟨hsubmit, hdb2, _⟩
        refine ⟨t, [], ts, by simp, by simp, by simpa using hsub, ?_⟩
        rw [← h, hdb2, hsubmit]

/-- What `complex_queue_member_check` guarantees about the row it returns. -/
theorem complex_check_ok {db : DB} {uid qid : Nat} {qm : QueueMember}
    (h : complex_queue_member_check db uid qid = .ok qm) :
    qm ∈ db.queue_members ∧ qm.user_id = uid ∧ qm.queue_id = qid ∧
    get_queue_member_by_user_id_and_queue_id db uid qid = some qm := by
  unfold complex_queue_member_check at h
  match h1 : get_queue_by_id db qid with
  | none => rw [h1] at h; exact absurd h (by simp)
  | some queue =>
    rw [h1] at h
    dsimp only at h
    match h2 : check_if_user_is_permitted_to_get_tasks db queue.subject_id uid with
    | .error e => rw [h2] at h; exact absurd h (by simp)
    | .ok () =>
      rw [h2] at h
      dsimp only at h
      match h3 : get_queue_member_by_user_id_and_queue_id db uid qid with
      | none => rw [h3] at h; exact absurd h (by simp)
      | some qm' =>
        rw [h3] at h
        dsimp only at h
        injection h with h
        subst h
        have hpred := List.find?_some h3
        simp only [Bool.and_eq_true, beq_iff_eq] at hpred
        exact ⟨List.mem_of_find?_eq_some h3, hpred.1, hpred.2, rfl⟩

/-- Shape of a successful `create_queue_member` run. -/
theorem create_queue_member_ok {db : DB} {uid qid : Nat} {m : QueueMember} {db' : DB}
    (h : create_queue_member db uid qid = .ok (m, db')) :
    m = { user_id := uid, queue_id := qid,
          position := get_next_position_in_queue_by_queue_id db qid,
          status := "active", entered_at := db.now } ∧
    db' = { db with queue_members := db.queue_members ++ [m] } := by
  unfold create_queue_member at h
  match h1 : get_queue_by_id db qid with
  | none => rw [h1] at h; exact absurd h (by simp)
  | some queue =>
    rw [h1] at h
    dsimp only at h
    match h2 : check_if_user_is_permitted_to_get_tasks db queue.subject_id uid with
    | .error e => rw [h2] at h; exact absurd h (by simp)
    | .ok () =>
      rw [h2] at h
      dsimp only at h
      match h3 : check_complex_unique_user_id_queue_id db uid qid with
      | .error e => rw [h3] at h; exact absurd h (by simp)
      | .ok () =>
        rw [h3] at h
        dsimp only at h
        injection h with h
        injection h with hm hdb
        subst hm
        exact ⟨rfl, hdb.symm⟩

/-- Shape of a successful status-toggle run. -/
theorem switch_queue_member_status_ok {db : DB} {uid qid : Nat}
    {m' : QueueMember} {db' : DB}
    (h : switch_queue_member_status_by_user_id_and_queue_id db uid qid = .ok (m', db')) :
    ∃ qm, complex_queue_member_check db uid qid = .ok qm ∧
      m' = { qm with status := if qm.status == "frozen" then "active" else "frozen" } ∧
      db' = { db with queue_members := db.queue_members.map (fun x =>
        if x.user_id == uid && x.queue_id == qid
        then { x with status := if qm.status == "frozen" then "active" else "frozen" }
        else x) } := by
  unfold switch_queue_member_status_by_user_id_and_queue_id at h
  match h1 : complex_queue_member_check db uid qid with
  | .error e => rw [h1] at h; exact absurd h (by simp)
  | .ok qm =>
    rw [h1] at h
    simp only at h
    injection h with h
    injection h with hm hdb
    exact ⟨qm, rfl, hm.symm, hdb.symm⟩

/-- Shape of a successful leave run: the check that found the removed row,
the final member table (delete, then renumber — the mark phase touches only
submissions), and the tables the leave never writes. -/
theorem leave_queue_ok {db : DB} {uid qid : Nat} {mark : Bool}
    {m : QueueMember} {db' : DB}
    (h : leave_queue_by_user_id_and_queue_id db uid qid mark = .ok (m, db')) :
    complex_queue_member_check db uid qid = .ok m ∧
    db'.queue_members
      = ((leave_delete_db db m).queue_members.map (renumber_row qid m.position)) ∧
    db'.queues = db.queues ∧ db'.subjects = db.subjects ∧
    db'.workspace_members = db.workspace_members ∧ db'.tasks = db.tasks := by
  unfold leave_queue_by_user_id_and_queue_id at h
  match h1 : complex_queue_member_check db uid qid with
  | .error e => rw [h1] at h; exact absurd h (by simp)
  | .ok qm =>
    rw [h1] at h
    simp only at h
    by_cases hm : mark
    · rw [if_pos hm] at h
      match h2 : get_queue_by_id (leave_renumber_db (leave_delete_db db qm) qid qm.position) qid with
      | none => rw [h2] at h; exact absurd h (by simp)
      | some queue =>
        rw [h2] at h
        dsimp only at h
        match h3 : mark_first_unsubmitted
            (leave_renumber_db (leave_delete_db db qm) qid qm.position) uid
            (sort_tasks_by_id (get_tasks_by_subject_id
              (leave_renumber_db (leave_delete_db db qm) qid qm.position) queue.subject_id)) with
        | .error e => rw [h3] at h; exact absurd h (by simp)
        | .ok odb =>
          rw [h3] at h
          dsimp only at h
          injection h with h
          injection h with hqm hdb
          subst hqm
          rcases mark_first_unsubmitted_spec _ _ _ _ h3 with ⟨hnone, _⟩ | ⟨t, l₁, l₂, _, _, _, hsome⟩
          · subst hnone
            rw [← hdb]
            exact ⟨rfl, rfl, rfl, rfl, rfl, rfl⟩
          · rw [hsome] at hdb
            rw [← hdb]
            exact ⟨rfl, rfl, rfl, rfl, rfl, rfl⟩
    · rw [if_neg hm] at h
      injection h with h
      injection h with hqm hdb
      subst hqm
      rw [← hdb]
      exact ⟨rfl, rfl, rfl, rfl, rfl, rfl⟩

-- --- Claim theorems ---

/-- C1: for every queue, after any committed operation (join via
`create_queue_member`, leave via `leave_queue_by_user_id_and_queue_id`,
status toggle via `switch_queue_member_status_by_user_id_and_queue_id`), the
multiset of position values of that queue's members equals `{0, ..., n-1}`
for `n` members — zero-based, contiguous, no gaps, no duplicates.  Stated as
preservation: from any store satisfying the invariant, each of the three
operations, when it commits, yields a store satisfying it for every queue. -/
theorem queue_ops_preserve_contiguity (db : DB) (uid qid : Nat)
    (h : db_contiguous db) :
    (∀ m db', create_queue_member db uid qid = .ok (m, db') → db_contiguous db') ∧
    (∀ mark m db', leave_queue_by_user_id_and_queue_id db uid qid mark = .ok (m, db') →
      db_contiguous db') ∧
    (∀ m db', switch_queue_member_status_by_user_id_and_queue_id db uid qid = .ok (m, db') →
      db_contiguous db') := by
  refine ⟨?_, ?_, ?_⟩
  · intro m db' hok q
    rcases create_queue_member_ok hok with ⟨hm, hdb⟩
    subst hdb
    rw [queue_positions_append db m q]
    by_cases hq : m.queue_id == q
    · rw [if_pos hq]
      have hqq : q = qid := by
        rw [hm] at hq
        have := (beq_iff_eq.mp hq).symm
        exact this
      subst hqq
      have hpos : m.position = (queue_positions db q).length := by
        rw [hm]
        exact next_position_eq_length (h q)
      rw [hpos]
      exact contiguous_snoc (h q)
    · rw [if_neg hq]
      simpa using h q
  · intro mark m db' hok q
    rcases leave_queue_ok hok with ⟨hch, hmem_eq, _, _, _, _⟩
    rcases complex_check_ok hch with ⟨hmem, _, hqm, _⟩
    have hpos : queue_positions db' q
        = queue_positions (leave_renumber_db (leave_delete_db db m) qid m.position) q := by
      unfold queue_positions
      rw [hmem_eq]
      rfl
    rw [hpos, queue_positions_renumber_db]
    have hperm := queue_positions_delete_perm db m hmem q
    by_cases hqq : q = qid
    · rw [if_pos hqq]
      subst hqq
      rw [if_pos (by simpa [beq_iff_eq] using hqm)] at hperm
      exact contiguous_erase_renumber (h q) hperm
    · rw [if_neg hqq]
      rw [if_neg (by simp [beq_iff_eq, hqm]; exact fun hc => hqq hc.symm)] at hperm
      exact contiguous_of_perm (by simpa using hperm) (h q)
  · intro m db' hok q
    rcases switch_queue_member_status_ok hok with ⟨qm, _, _, hdb⟩
    subst hdb
    rw [queue_positions_map_eq]
    · exact h q
    · intro x
      dsimp only
      split <;> rfl
    · intro x
      dsimp only
      split <;> rfl

/-- Empty-queue store used to instantiate the invariant theorems: one queue
for subject 1 in workspace 1, user 1 a (non-admin) workspace member, no
queue members. -/
def dbE : DB :=
  { queues := [{ id := 1, subject_id := 1, members_can_freeze := true }]
    queue_members := []
    subjects := [{ id := 1, workspace_id := 1 }]
    workspace_members := [{ user_id := 1, workspace_id := 1, is_admin := false }]
    tasks := []
    submissions := []
    now := 0
    queue_id_seq := 2 }

theorem dbE_contiguous : db_contiguous dbE := by
  intro q k
  simp [contiguous, queue_positions, dbE]

theorem queue_ops_preserve_contiguity_witness :
    db_contiguous dbE ∧
    ((∀ m db', create_queue_member dbE 1 1 = .ok (m, db') → db_contiguous db') ∧
     (∀ mark m db', leave_queue_by_user_id_and_queue_id dbE 1 1 mark = .ok (m, db') →
       db_contiguous db') ∧
     (∀ m db', switch_queue_member_status_by_user_id_and_queue_id dbE 1 1 = .ok (m, db') →
       db_contiguous db')) :=
  ⟨dbE_contiguous, queue_ops_preserve_contiguity dbE 1 1 dbE_contiguous⟩

/-- Scenario store shared by the concrete instantiations: subject 1 in
workspace 1; its queue (id 1) has `members_can_freeze = false`; users 1, 2
(plain members) and 3 (admin) belong to the workspace; the queue holds users
1, 2, 3 at positions 0, 1, 2 (user 3 frozen); the subject has tasks 1, 2, 3
and user 1 has submitted task 2 only. -/
def dbS : DB :=
  { queues := [{ id := 1, subject_id := 1, members_can_freeze := false }]
    queue_members :=
      [{ user_id := 1, queue_id := 1, position := 0, status := "active", entered_at := 5 },
       { user_id := 2, queue_id := 1, position := 1, status := "active", entered_at := 6 },
       { user_id := 3, queue_id := 1, position := 2, status := "frozen", entered_at := 7 }]
    subjects := [{ id := 1, workspace_id := 1 }]
    workspace_members :=
      [{ user_id := 1, workspace_id := 1, is_admin := false },
       { user_id := 2, workspace_id := 1, is_admin := false },
       { user_id := 3, workspace_id := 1, is_admin := true }]
    tasks := [{ id := 2, subject_id := 1 }, { id := 1, subject_id := 1 },
              { id := 3, subject_id := 1 }]
    submissions := [{ user_id := 1, task_id := 2 }]
    now := 10
    queue_id_seq := 2 }

/-- C3: a join into an existing queue assigns position
`1 + max(existing positions)`, or `0` when the queue is empty (the `max?`
form below is literally `_get_next_position_in_queue_by_queue_id`); in
particular on a contiguous queue the joiner receives position `n`, the
member count; the new member is inserted with status `"active"` at the tail. -/
theorem create_queue_member_assigns_next_position (db : DB) (uid qid : Nat)
    (m : QueueMember) (db' : DB)
    (h : create_queue_member db uid qid = .ok (m, db')) :
    m.status = "active" ∧ m.user_id = uid ∧ m.queue_id = qid ∧
    m.position = (match (queue_positions db qid).max? with
      | none => 0
      | some last => last + 1) ∧
    db'.queue_members = db.queue_members ++ [m] ∧
    (contiguous (queue_positions db qid) →
      m.position = (get_queue_members_by_queue_id db qid).length) := by
  rcases create_queue_member_ok h with ⟨hm, hdb⟩
  subst hm
  subst hdb
  refine ⟨rfl, rfl, rfl, rfl, rfl, ?_⟩
  intro hc
  have h1 : get_next_position_in_queue_by_queue_id db qid
      = (queue_positions db qid).length := next_position_eq_length hc
  have h2 : (queue_positions db qid).length
      = (get_queue_members_by_queue_id db qid).length := List.length_map _ _
  exact h1.trans h2

theorem create_queue_member_assigns_next_position_witness :
    create_queue_member dbE 1 1
      = .ok ({ user_id := 1, queue_id := 1, position := 0, status := "active",
               entered_at := 0 },
             { dbE with queue_members :=
                [{ user_id := 1, queue_id := 1, position := 0, status := "active",
                   entered_at := 0 }] }) ∧
    (({ user_id := 1, queue_id := 1, position := 0, status := "active",
        entered_at := 0 } : QueueMember).status = "active" ∧
     ({ user_id := 1, queue_id := 1, position := 0, status := "active",
        entered_at := 0 } : QueueMember).user_id = 1 ∧
     ({ user_id := 1, queue_id := 1, position := 0, status := "active",
        entered_at := 0 } : QueueMember).queue_id = 1 ∧
     ({ user_id := 1, queue_id := 1, position := 0, status := "active",
        entered_at := 0 } : QueueMember).position
       = (match (queue_positions dbE 1).max? with
          | none => 0
          | some last => last + 1) ∧
     ({ dbE with queue_members :=
          [{ user_id := 1, queue_id := 1, position := 0, status := "active",
             entered_at := 0 }] } : DB).queue_members
       = dbE.queue_members ++ [{ user_id := 1, queue_id := 1, position := 0,
                                 status := "active", entered_at := 0 }] ∧
     (contiguous (queue_positions dbE 1) →
       ({ user_id := 1, queue_id := 1, position := 0, status := "active",
          entered_at := 0 } : QueueMember).position
         = (get_queue_members_by_queue_id dbE 1).length)) :=
  ⟨by rfl,
   create_queue_member_assigns_next_position dbE 1 1
     { user_id := 1, queue_id := 1, position := 0, status := "active", entered_at := 0 }
     { dbE with queue_members :=
        [{ user_id := 1, queue_id := 1, position := 0, status := "active",
           entered_at := 0 }] }
     (by rfl)⟩

/-- C4: a committed leave of the member at position `p` removes exactly
that row; every remaining member of the queue with a greater position is kept
with its position decremented by one and every other field unchanged, and
every remaining member with a position at most `p` (or of another queue) is
kept entirely unchanged. -/
theorem leave_queue_renumbers_trailing_members (db : DB) (uid qid : Nat)
    (mark : Bool) (m : QueueMember) (db' : DB)
    (h : leave_queue_by_user_id_and_queue_id db uid qid mark = .ok (m, db')) :
    m ∈ db.queue_members ∧ m.user_id = uid ∧ m.queue_id = qid ∧
    db'.queue_members = (db.queue_members.erase m).map (renumber_row qid m.position) ∧
    (∀ x ∈ db.queue_members.erase m,
      (x.queue_id = qid → m.position < x.position →
        ({ x with position := x.position - 1 } : QueueMember) ∈ db'.queue_members) ∧
      ((x.queue_id = qid → x.position ≤ m.position) → x ∈ db'.queue_members)) := by
  rcases leave_queue_ok h with ⟨hch, hmem_eq, _, _, _, _⟩
  rcases complex_check_ok hch with ⟨hmem, hu, hqm, _⟩
  have hdel : (leave_delete_db db m).queue_members = db.queue_members.erase m := rfl
  rw [hdel] at hmem_eq
  refine ⟨hmem, hu, hqm, hmem_eq, ?_⟩
  intro x hx
  constructor
  · intro hxq hlt
    rw [hmem_eq]
    have hrow : renumber_row qid m.position x
        = { x with position := x.position - 1 } := by
      unfold renumber_row
      rw [if_pos]
      simp [hxq, hlt]
    rw [← hrow]
    exact List.mem_map_of_mem _ hx
  · intro hle
    rw [hmem_eq]
    have hrow : renumber_row qid m.position x = x := by
      unfold renumber_row
      rw [if_neg]
      simp only [Bool.and_eq_true, beq_iff_eq, decide_eq_true_eq, not_and]
      intro h1 h2
      exact absurd (hle h1) (by omega)
    rw [← hrow]
    exact List.mem_map_of_mem _ hx

theorem leave_queue_renumbers_trailing_members_witness :
    leave_queue_by_user_id_and_queue_id dbS 1 1 false
      = .ok ({ user_id := 1, queue_id := 1, position := 0, status := "active",
               entered_at := 5 },
             { dbS with queue_members :=
                [{ user_id := 2, queue_id := 1, position := 0, status := "active",
                   entered_at := 6 },
                 { user_id := 3, queue_id := 1, position := 1, status := "frozen",
                   entered_at := 7 }] }) ∧
    ({ user_id := 1, queue_id := 1, position := 0, status := "active",
       entered_at := 5 } : QueueMember) ∈ dbS.queue_members ∧
    ({ user_id := 1, queue_id := 1, position := 0, status := "active",
       entered_at := 5 } : QueueMember).user_id = 1 ∧
    ({ user_id := 1, queue_id := 1, position := 0, status := "active",
       entered_at := 5 } : QueueMember).queue_id = 1 ∧
    ({ dbS with queue_members :=
        [{ user_id := 2, queue_id := 1, position := 0, status := "active",
           entered_at := 6 },
         { user_id := 3, queue_id := 1, position := 1, status := "frozen",
           entered_at := 7 }] } : DB).queue_members
      = (dbS.queue_members.erase
          { user_id := 1, queue_id := 1, position := 0, status := "active",
            entered_at := 5 }).map (renumber_row 1 0) ∧
    (∀ x ∈ dbS.queue_members.erase
        { user_id := 1, queue_id := 1, position := 0, status := "active",
          entered_at := 5 },
      (x.queue_id = 1 → 0 < x.position →
        ({ x with position := x.position - 1 } : QueueMember) ∈
          ({ dbS with queue_members :=
              [{ user_id := 2, queue_id := 1, position := 0, status := "active",
                 entered_at := 6 },
               { user_id := 3, queue_id := 1, position := 1, status := "frozen",
                 entered_at := 7 }] } : DB).queue_members) ∧
      ((x.queue_id = 1 → x.position ≤ 0) → x ∈
          ({ dbS with queue_members :=
              [{ user_id := 2, queue_id := 1, position := 0, status := "active",
                 entered_at := 6 },
               { user_id := 3, queue_id := 1, position := 1, status := "frozen",
                 entered_at := 7 }] } : DB).queue_members)) := by
  have h := leave_queue_renumbers_trailing_members dbS 1 1 false
    { user_id := 1, queue_id := 1, position := 0, status := "active", entered_at := 5 }
    { dbS with queue_members :=
       [{ user_id := 2, queue_id := 1, position := 0, status := "active",
          entered_at := 6 },
        { user_id := 3, queue_id := 1, position := 1, status := "frozen",
          entered_at := 7 }] }
    (by rfl)
  exact ⟨by rfl, h.1, h.2.1, h.2.2.1, h.2.2.2.1, h.2.2.2.2⟩

/-- C5: a join attempt by a user who already occupies a slot in the queue
(the caller being a workspace member, so that the authorization gate is
passed) fails with the Conflict-mapped `UniqueConstraintViolationException`
and returns the store exactly as it was — no row inserted, no position or
status changed. -/
theorem duplicate_join_conflict (db : DB) (uid qid : Nat)
    (queue : Queue) (subj : Subject)
    (hq : get_queue_by_id db qid = some queue)
    (hs : get_subject_by_id db queue.subject_id = some subj)
    (hmem : (get_workspace_member_by_user_id_and_workspace_id db uid
      subj.workspace_id).isSome)
    (hdup : (get_queue_member_by_user_id_and_queue_id db uid qid).isSome) :
    create_queue_member db uid qid = .error (.uniqueConstraintViolation, db) ∧
    httpStatus .uniqueConstraintViolation = 409 := by
  refine ⟨?_, rfl⟩
  unfold create_queue_member
  rw [hq]
  dsimp only
  have hcheck : check_if_user_is_permitted_to_get_tasks db queue.subject_id uid
      = .ok () := by
    unfold check_if_user_is_permitted_to_get_tasks
    rw [hs]
    dsimp only
    unfold check_if_user_is_workspace_member
    rw [if_pos hmem]
  rw [hcheck]
  dsimp only
  have hconf : check_complex_unique_user_id_queue_id db uid qid
      = .error .uniqueConstraintViolation := by
    unfold check_complex_unique_user_id_queue_id
    rw [if_pos hdup]
  rw [hconf]

theorem duplicate_join_conflict_witness :
    get_queue_by_id dbS 1 = some { id := 1, subject_id := 1, members_can_freeze := false } ∧
    get_subject_by_id dbS 1 = some { id := 1, workspace_id := 1 } ∧
    (get_workspace_member_by_user_id_and_workspace_id dbS 1 1).isSome = true ∧
    (get_queue_member_by_user_id_and_queue_id dbS 1 1).isSome = true ∧
    (create_queue_member dbS 1 1 = .error (.uniqueConstraintViolation, dbS) ∧
     httpStatus .uniqueConstraintViolation = 409) :=
  ⟨by rfl, by rfl, by rfl, by rfl,
   duplicate_join_conflict dbS 1 1
     { id := 1, subject_id := 1, members_can_freeze := false }
     { id := 1, workspace_id := 1 }
     (by rfl) (by rfl) (by rfl) (by rfl)⟩

/-- The intermediate facts established by a successful complex check. -/
theorem complex_check_components {db : DB} {uid qid : Nat} {qm : QueueMember}
    (h : complex_queue_member_check db uid qid = .ok qm) :
    ∃ queue, get_queue_by_id db qid = some queue ∧
      check_if_user_is_permitted_to_get_tasks db queue.subject_id uid = .ok () ∧
      get_queue_member_by_user_id_and_queue_id db uid qid = some qm := by
  unfold complex_queue_member_check at h
  match h1 : get_queue_by_id db qid with
  | none => rw [h1] at h; exact absurd h (by simp)
  | some queue =>
    rw [h1] at h
    dsimp only at h
    match h2 : check_if_user_is_permitted_to_get_tasks db queue.subject_id uid with
    | .error e => rw [h2] at h; exact absurd h (by simp)
    | .ok () =>
      rw [h2] at h
      dsimp only at h
      match h3 : get_queue_member_by_user_id_and_queue_id db uid qid with
      | none => rw [h3] at h; exact absurd h (by simp)
      | some qm' =>
        rw [h3] at h
        dsimp only at h
        injection h with h
        subst h
        exact ⟨queue, rfl, h2, rfl⟩

/-- Converse constructor for the complex check. -/
theorem complex_check_eq_of_parts {db : DB} {uid qid : Nat} {queue : Queue}
    {qm : QueueMember}
    (h1 : get_queue_by_id db qid = some queue)
    (h2 : check_if_user_is_permitted_to_get_tasks db queue.subject_id uid = .ok ())
    (h3 : get_queue_member_by_user_id_and_queue_id db uid qid = some qm) :
    complex_queue_member_check db uid qid = .ok qm := by
  unfold complex_queue_member_check
  rw [h1]
  dsimp only
  rw [h2]
  dsimp only
  rw [h3]

/-- Computation of a toggle from its check. -/
theorem switch_eq_of_check {db : DB} {uid qid : Nat} {qm : QueueMember}
    (h : complex_queue_member_check db uid qid = .ok qm) :
    switch_queue_member_status_by_user_id_and_queue_id db uid qid
      = .ok ({ qm with status := if qm.status == "frozen" then "active" else "frozen" },
             { db with queue_members := db.queue_members.map (fun x =>
                if x.user_id == uid && x.queue_id == qid
                then { x with status := if qm.status == "frozen" then "active" else "frozen" }
                else x) }) := by
  unfold switch_queue_member_status_by_user_id_and_queue_id
  rw [h]

/-- Lemma: `find?` commutes with a map that does not change the predicate. -/
theorem find?_map_eq {α : Type} (l : List α) (f : α → α) (p : α → Bool)
    (hp : ∀ x, p (f x) = p x) : (l.map f).find? p = (l.find? p).map f := by
  induction l with
  | nil => rfl
  | cons x xs ih =>
    by_cases hx : p x
    · rw [List.map_cons, List.find?_cons_of_pos _ (by rw [hp]; exact hx),
          List.find?_cons_of_pos _ hx]
      rfl
    · rw [List.map_cons, List.find?_cons_of_neg _ (by rw [hp]; simpa using hx),
          List.find?_cons_of_neg _ (by simpa using hx), ih]

/-- C10: for a queue member one committed toggle maps status `"frozen"`
to `"active"` and any other status to `"frozen"`, changes no other field of
the member, and — when the original status is `"active"` or `"frozen"` — a
second toggle commits and returns the member exactly as it originally was
(the toggle is an involution on `{active, frozen}`). -/
theorem switch_status_toggle_involution (db : DB) (uid qid : Nat)
    (m m' : QueueMember) (db' : DB)
    (hm : get_queue_member_by_user_id_and_queue_id db uid qid = some m)
    (h : switch_queue_member_status_by_user_id_and_queue_id db uid qid = .ok (m', db')) :
    m'.status = (if m.status == "frozen" then "active" else "frozen") ∧
    m'.user_id = m.user_id ∧ m'.queue_id = m.queue_id ∧
    m'.position = m.position ∧ m'.entered_at = m.entered_at ∧
    (m.status = "active" ∨ m.status = "frozen" →
      ∃ m'' db'',
        switch_queue_member_status_by_user_id_and_queue_id db' uid qid = .ok (m'', db'') ∧
        m'' = m) := by
  rcases switch_queue_member_status_ok h with ⟨qm, hch, hm', hdb⟩
  rcases complex_check_components hch with ⟨queue, hq1, hq2, hq3⟩
  have hqm : qm = m := by
    rw [hq3] at hm
    injection hm
  subst hqm
  subst hm'
  refine ⟨rfl, rfl, rfl, rfl, rfl, ?_⟩
  intro hst
  subst hdb
  have hq1' : get_queue_by_id
      { db with queue_members := db.queue_members.map (fun x =>
          if x.user_id == uid && x.queue_id == qid
          then { x with status := if qm.status == "frozen" then "active" else "frozen" }
          else x) } qid = some queue := hq1
  have hq2' : check_if_user_is_permitted_to_get_tasks
      { db with queue_members := db.queue_members.map (fun x =>
          if x.user_id == uid && x.queue_id == qid
          then { x with status := if qm.status == "frozen" then "active" else "frozen" }
          else x) } queue.subject_id uid = .ok () := hq2
  have hq3f : db.queue_members.find?
      (fun x => x.user_id == uid && x.queue_id == qid) = some qm := hq3
  have hpred : (qm.user_id == uid && qm.queue_id == qid) = true :=
    @List.find?_some QueueMember (fun x => x.user_id == uid && x.queue_id == qid)
      qm db.queue_members hq3f
  have hq3' : get_queue_member_by_user_id_and_queue_id
      { db with queue_members := db.queue_members.map (fun x =>
          if x.user_id == uid && x.queue_id == qid
          then { x with status := if qm.status == "frozen" then "active" else "frozen" }
          else x) } uid qid
      = some { qm with status := if qm.status == "frozen" then "active" else "frozen" } := by
    show (db.queue_members.map _).find? _ = _
    rw [find?_map_eq _ _ _ (fun x => by split <;> rfl)]
    show (get_queue_member_by_user_id_and_queue_id db uid qid).map _ = _
    rw [hq3]
    show some _ = _
    dsimp only
    rw [if_pos hpred]
  have hswitch := switch_eq_of_check (complex_check_eq_of_parts hq1' hq2' hq3')
  refine ⟨_, _, hswitch, ?_⟩
  rcases hst with hst | hst <;>
  · cases qm
    dsimp only at hst
    subst hst
    rfl

theorem switch_status_toggle_involution_witness :
    get_queue_member_by_user_id_and_queue_id dbS 3 1
      = some { user_id := 3, queue_id := 1, position := 2, status := "frozen",
               entered_at := 7 } ∧
    switch_queue_member_status_by_user_id_and_queue_id dbS 3 1
      = .ok ({ user_id := 3, queue_id := 1, position := 2, status := "active",
               entered_at := 7 },
             { dbS with queue_members :=
                [{ user_id := 1, queue_id := 1, position := 0, status := "active",
                   entered_at := 5 },
                 { user_id := 2, queue_id := 1, position := 1, status := "active",
                   entered_at := 6 },
                 { user_id := 3, queue_id := 1, position := 2, status := "active",
                   entered_at := 7 }] }) ∧
    (({ user_id := 3, queue_id := 1, position := 2, status := "active",
        entered_at := 7 } : QueueMember).status
       = (if ("frozen" : String) == "frozen" then "active" else "frozen") ∧
     ∃ m'' db'',
       switch_queue_member_status_by_user_id_and_queue_id
         { dbS with queue_members :=
            [{ user_id := 1, queue_id := 1, position := 0, status := "active",
               entered_at := 5 },
             { user_id := 2, queue_id := 1, position := 1, status := "active",
               entered_at := 6 },
             { user_id := 3, queue_id := 1, position := 2, status := "active",
               entered_at := 7 }] } 3 1 = .ok (m'', db'') ∧
       m'' = { user_id := 3, queue_id := 1, position := 2, status := "frozen",
               entered_at := 7 }) := by
  have h := switch_status_toggle_involution dbS 3 1
    { user_id := 3, queue_id := 1, position := 2, status := "frozen", entered_at := 7 }
    { user_id := 3, queue_id := 1, position := 2, status := "active", entered_at := 7 }
    { dbS with queue_members :=
       [{ user_id := 1, queue_id := 1, position := 0, status := "active",
          entered_at := 5 },
        { user_id := 2, queue_id := 1, position := 1, status := "active",
          entered_at := 6 },
        { user_id := 3, queue_id := 1, position := 2, status := "active",
          entered_at := 7 }] }
    (by rfl) (by rfl)
  exact ⟨by rfl, by rfl, h.1, h.2.2.2.2.2 (Or.inr rfl)⟩

/-- Value extractor used in statements about operation outcomes. -/
def crud_value {α : Type} : CrudResult α → Option α
  | .ok (a, _) => some a
  | .error _ => none

/-- C6 counterexample: in `dbS` the queue has `members_can_freeze = false`
and user 2's member row is `"active"`, yet one committed toggle moves it to
`"frozen"` — the toggle never consults the flag (crud/queue_members.py lines
305-309 read only the member's status), refuting the claim that an
active-to-frozen transition is permitted only when `members_can_freeze` is
true. -/
theorem switch_status_freezes_despite_flag_false :
    (get_queue_by_id dbS 1).map Queue.members_can_freeze = some false ∧
    (get_queue_member_by_user_id_and_queue_id dbS 2 1).map QueueMember.status
      = some "active" ∧
    (crud_value (switch_queue_member_status_by_user_id_and_queue_id dbS 2 1)).map
      QueueMember.status = some "frozen" :=
  ⟨rfl, rfl, rfl⟩

/-- C6 as amended: the toggle ignores `members_can_freeze` entirely —
for any queue, whatever the flag's value, a member whose status is
`"active"` is moved to `"frozen"` by a committed toggle. -/
theorem switch_status_ignores_members_can_freeze (db : DB) (uid qid : Nat)
    (queue : Queue) (m m' : QueueMember) (db' : DB)
    (_hq : get_queue_by_id db qid = some queue)
    (hm : get_queue_member_by_user_id_and_queue_id db uid qid = some m)
    (hactive : m.status = "active")
    (h : switch_queue_member_status_by_user_id_and_queue_id db uid qid = .ok (m', db')) :
    m'.status = "frozen" := by
  rcases switch_queue_member_status_ok h with ⟨qm, hch, hm', _⟩
  rcases complex_check_components hch with ⟨_, _, _, hq3⟩
  have hqm : qm = m := by
    rw [hq3] at hm
    injection hm
  subst hqm
  subst hm'
  rw [hactive]
  rfl

theorem switch_status_ignores_members_can_freeze_witness :
    get_queue_by_id dbS 1
      = some { id := 1, subject_id := 1, members_can_freeze := false } ∧
    get_queue_member_by_user_id_and_queue_id dbS 2 1
      = some { user_id := 2, queue_id := 1, position := 1, status := "active",
               entered_at := 6 } ∧
    ({ user_id := 2, queue_id := 1, position := 1, status := "active",
       entered_at := 6 } : QueueMember).status = "active" ∧
    ({ user_id := 2, queue_id := 1, position := 1, status := "frozen",
       entered_at := 6 } : QueueMember).status = "frozen" :=
  ⟨by rfl, by rfl, by rfl,
   switch_status_ignores_members_can_freeze dbS 2 1
     { id := 1, subject_id := 1, members_can_freeze := false }
     { user_id := 2, queue_id := 1, position := 1, status := "active", entered_at := 6 }
     { user_id := 2, queue_id := 1, position := 1, status := "frozen", entered_at := 6 }
     { dbS with queue_members :=
        [{ user_id := 1, queue_id := 1, position := 0, status := "active",
           entered_at := 5 },
         { user_id := 2, queue_id := 1, position := 1, status := "frozen",
           entered_at := 6 },
         { user_id := 3, queue_id := 1, position := 2, status := "frozen",
           entered_at := 7 }] }
     (by rfl) (by rfl) (by rfl) (by rfl)⟩

/-- Per-commit position lists of one queue along a leave run. -/
def committed_positions (r : Except (ApiError × DB) (List DB)) (queue_id : Nat) :
    Option (List (List Nat)) :=
  match r with
  | .error _ => none
  | .ok states => some (states.map (fun d => queue_positions d queue_id))

/-- Per-commit presence of one member row along a leave run. -/
def committed_member_present (r : Except (ApiError × DB) (List DB))
    (user_id queue_id : Nat) : Option (List Bool) :=
  match r with
  | .error _ => none
  | .ok states => some (states.map (fun d =>
      (get_queue_member_by_user_id_and_queue_id d user_id queue_id).isSome))

/-- C2 counterexample: in `dbS` (positions `[0, 1, 2]`), the leave of
user 1 commits twice (crud/queue_members.py lines 357 and 367); the first
committed store already lacks the deleted row but still holds the old
positions `[1, 2]` — a committed state in which the deletion is visible and
the renumbering is not, refuting the claim that deletion, renumbering and
the optional submission form a single atomic storage transaction. -/
theorem leave_commits_intermediate_gap :
    queue_positions dbS 1 = [0, 1, 2] ∧
    committed_positions (leave_queue_committed_states dbS 1 1 false) 1
      = some [[1, 2], [0, 1]] ∧
    committed_member_present (leave_queue_committed_states dbS 1 1 false) 1 1
      = some [false, false] :=
  ⟨rfl, rfl, rfl⟩

/-- C2 as amended: a successful leave is a sequence of at least two
separately committed stores, not one transaction: the first commit holds the
deletion alone (row erased, no position touched), the second adds the
decrement-renumbering, and the optional leave-and-mark submission is a third
separate commit; the final committed store is the one the operation returns. -/
theorem leave_queue_commit_sequence (db : DB) (uid qid : Nat) (mark : Bool)
    (m : QueueMember) (db' : DB)
    (h : leave_queue_by_user_id_and_queue_id db uid qid mark = .ok (m, db')) :
    ∃ states, leave_queue_committed_states db uid qid mark = .ok states ∧
      2 ≤ states.length ∧
      states.head? = some (leave_delete_db db m) ∧
      (leave_delete_db db m).queue_members = db.queue_members.erase m ∧
      states.getD 1 db' = leave_renumber_db (leave_delete_db db m) qid m.position ∧
      states.getLast? = some db' := by
  unfold leave_queue_by_user_id_and_queue_id at h
  unfold leave_queue_committed_states
  match h1 : complex_queue_member_check db uid qid with
  | .error e => rw [h1] at h; exact absurd h (by simp)
  | .ok qm =>
    rw [h1] at h
    try dsimp only at h
    try dsimp only
    by_cases hm : mark
    · rw [if_pos hm] at h ⊢
      match h2 : get_queue_by_id (leave_renumber_db (leave_delete_db db qm) qid qm.position) qid with
      | none =>
        rw [h2] at h
        exact absurd h (by simp)
      | some queue =>
        rw [h2] at h
        try dsimp only at h
        try dsimp only
        match h3 : mark_first_unsubmitted
            (leave_renumber_db (leave_delete_db db qm) qid qm.position) uid
            (sort_tasks_by_id (get_tasks_by_subject_id
              (leave_renumber_db (leave_delete_db db qm) qid qm.position) queue.subject_id)) with
        | .error e =>
          rw [h3] at h
          exact absurd h (by simp)
        | .ok odb =>
          rw [h3] at h
          try dsimp only at h
          try dsimp only
          injection h with h
          injection h with hqm hdb
          subst hqm
          match odb with
          | none =>
            try dsimp only [Option.getD] at hdb
            try dsimp only [Option.getD]
            subst hdb
            exact ⟨_, rfl, by simp, rfl, rfl, rfl, rfl⟩
          | some db3 =>
            try dsimp only [Option.getD] at hdb
            try dsimp only [Option.getD]
            subst hdb
            exact ⟨_, rfl, by simp, rfl, rfl, rfl, rfl⟩
    · rw [if_neg hm] at h ⊢
      injection h with h
      injection h with hqm hdb
      subst hqm
      subst hdb
      exact ⟨_, rfl, by simp, rfl, rfl, rfl, rfl⟩

theorem leave_queue_commit_sequence_witness :
    leave_queue_by_user_id_and_queue_id dbS 1 1 false
      = .ok ({ user_id := 1, queue_id := 1, position := 0, status := "active",
               entered_at := 5 },
             { dbS with queue_members :=
                [{ user_id := 2, queue_id := 1, position := 0, status := "active",
                   entered_at := 6 },
                 { user_id := 3, queue_id := 1, position := 1, status := "frozen",
                   entered_at := 7 }] }) ∧
    (∃ states, leave_queue_committed_states dbS 1 1 false = .ok states ∧
      2 ≤ states.length ∧
      states.head? = some (leave_delete_db dbS
        { user_id := 1, queue_id := 1, position := 0, status := "active",
          entered_at := 5 }) ∧
      (leave_delete_db dbS
        { user_id := 1, queue_id := 1, position := 0, status := "active",
          entered_at := 5 }).queue_members
        = dbS.queue_members.erase
            { user_id := 1, queue_id := 1, position := 0, status := "active",
              entered_at := 5 } ∧
      states.getD 1 { dbS with queue_members :=
          [{ user_id := 2, queue_id := 1, position := 0, status := "active",
             entered_at := 6 },
           { user_id := 3, queue_id := 1, position := 1, status := "frozen",
             entered_at := 7 }] }
        = leave_renumber_db (leave_delete_db dbS
            { user_id := 1, queue_id := 1, position := 0, status := "active",
              entered_at := 5 }) 1 0 ∧
      states.getLast? = some { dbS with queue_members :=
          [{ user_id := 2, queue_id := 1, position := 0, status := "active",
             entered_at := 6 },
           { user_id := 3, queue_id := 1, position := 1, status := "frozen",
             entered_at := 7 }] }) :=
  ⟨by rfl,
   leave_queue_commit_sequence dbS 1 1 false
     { user_id := 1, queue_id := 1, position := 0, status := "active", entered_at := 5 }
     { dbS with queue_members :=
        [{ user_id := 2, queue_id := 1, position := 0, status := "active",
           entered_at := 6 },
         { user_id := 3, queue_id := 1, position := 1, status := "frozen",
           entered_at := 7 }] }
     (by rfl)⟩

/-- Store with a subject but no queue yet: subject 1 in workspace 1, user 1
a non-admin workspace member. -/
def dbC7 : DB := { dbE with queues := [], queue_id_seq := 1 }

/-- C7 counterexample: user 1 is a workspace member with
`is_admin = false`, yet `create_queue` succeeds — crud/queues.py line 121
gates queue creation with `check_if_user_is_permitted_to_get_tasks`
(membership only), not with the admin check, refuting the claim that a
non-admin member receives Forbidden on createQueue. -/
theorem create_queue_succeeds_for_non_admin_member :
    (get_workspace_member_by_user_id_and_workspace_id dbC7 1 1).map
      WorkspaceMember.is_admin = some false ∧
    crudOk (create_queue dbC7 1 { subject_id := 1, members_can_freeze := true })
      = true ∧
    crud_value (create_queue dbC7 1 { subject_id := 1, members_can_freeze := true })
      = some { id := 1, subject_id := 1, members_can_freeze := true } :=
  ⟨rfl, rfl, rfl⟩

/-- C7 as amended: `update_queue` and `delete_queue` fail with the
403-mapped `UserIsNotWorkspaceAdminException` for a workspace member who is
not an admin (store unchanged); `create_queue`, however, is gated on
membership only — a non-admin member with an existing subject and no
existing queue succeeds; and a caller who is not a workspace member at all
receives the same 403-mapped error from join, toggle, leave and websocket
registration, each leaving the store (and for the websocket, the connection
registry) unchanged. -/
theorem authorization_gating (db : DB) (uid : Nat) :
    (∀ sid subj w queue,
      get_subject_by_id db sid = some subj →
      get_workspace_member_by_user_id_and_workspace_id db uid subj.workspace_id
        = some w →
      w.is_admin = false →
      db.queues.find? (fun q => q.subject_id == sid) = some queue →
      (∀ upd, update_queue db upd sid uid = .error (.userIsNotWorkspaceAdmin, db)) ∧
      delete_queue db sid uid = .error (.userIsNotWorkspaceAdmin, db)) ∧
    (∀ sid subj,
      get_subject_by_id db sid = some subj →
      (get_workspace_member_by_user_id_and_workspace_id db uid subj.workspace_id).isSome →
      db.queues.find? (fun q => q.subject_id == sid) = none →
      ∀ mcf, crudOk (create_queue db uid { subject_id := sid, members_can_freeze := mcf })
        = true) ∧
    (∀ qid queue subj,
      get_queue_by_id db qid = some queue →
      get_subject_by_id db queue.subject_id = some subj →
      get_workspace_member_by_user_id_and_workspace_id db uid subj.workspace_id = none →
      create_queue_member db uid qid = .error (.userIsNotWorkspaceAdmin, db) ∧
      switch_queue_member_status_by_user_id_and_queue_id db uid qid
        = .error (.userIsNotWorkspaceAdmin, db) ∧
      (∀ mark, leave_queue_by_user_id_and_queue_id db uid qid mark
        = .error (.userIsNotWorkspaceAdmin, db)) ∧
      (∀ reg ws, websocket_register db reg uid qid ws
        = .error .userIsNotWorkspaceAdmin)) ∧
    httpStatus .userIsNotWorkspaceAdmin = 403 := by
  refine ⟨?_, ?_, ?_, rfl⟩
  · intro sid subj w queue hs hw hadm hq
    have hadmin : check_if_user_is_permitted_to_modify_tasks db sid uid
        = .error .userIsNotWorkspaceAdmin := by
      unfold check_if_user_is_permitted_to_modify_tasks
      rw [hs]
      dsimp only
      unfold check_if_user_is_workspace_admin
      rw [hw]
      dsimp only
      rw [if_neg (by simp [hadm])]
    have hgq : get_queue_by_subject_id_admin db sid uid
        = .error .userIsNotWorkspaceAdmin := by
      unfold get_queue_by_subject_id_admin
      rw [hq]
      dsimp only
      rw [hadmin]
    constructor
    · intro upd
      unfold update_queue
      rw [hs]
      dsimp only
      rw [hgq]
    · unfold delete_queue
      rw [hs]
      dsimp only
      rw [hgq]
  · intro sid subj hs hmem hq mcf
    have hcheck : check_if_user_is_permitted_to_get_tasks db sid uid = .ok () := by
      unfold check_if_user_is_permitted_to_get_tasks
      rw [hs]
      dsimp only
      unfold check_if_user_is_workspace_member
      rw [if_pos hmem]
    unfold create_queue
    dsimp only
    rw [hs]
    dsimp only
    rw [hcheck]
    dsimp only
    rw [hq]
    rfl
  · intro qid queue subj hq hs hw
    have hcheck : check_if_user_is_permitted_to_get_tasks db queue.subject_id uid
        = .error .userIsNotWorkspaceAdmin := by
      unfold check_if_user_is_permitted_to_get_tasks
      rw [hs]
      dsimp only
      unfold check_if_user_is_workspace_member
      rw [if_neg (by simp [hw])]
    have hcomplex : complex_queue_member_check db uid qid
        = .error .userIsNotWorkspaceAdmin := by
      unfold complex_queue_member_check
      rw [hq]
      dsimp only
      rw [hcheck]
    refine ⟨?_, ?_, ?_, ?_⟩
    · unfold create_queue_member
      rw [hq]
      dsimp only
      rw [hcheck]
    · unfold switch_queue_member_status_by_user_id_and_queue_id
      rw [hcomplex]
    · intro mark
      unfold leave_queue_by_user_id_and_queue_id
      rw [hcomplex]
    · intro reg ws
      unfold websocket_register
      rw [hq]
      dsimp only
      rw [hcheck]

theorem authorization_gating_witness :
    (update_queue dbS { members_can_freeze := some true } 1 2
       = .error (.userIsNotWorkspaceAdmin, dbS) ∧
     delete_queue dbS 1 2 = .error (.userIsNotWorkspaceAdmin, dbS)) ∧
    crudOk (create_queue dbC7 1 { subject_id := 1, members_can_freeze := true })
      = true ∧
    (create_queue_member dbS 4 1 = .error (.userIsNotWorkspaceAdmin, dbS) ∧
     switch_queue_member_status_by_user_id_and_queue_id dbS 4 1
       = .error (.userIsNotWorkspaceAdmin, dbS) ∧
     leave_queue_by_user_id_and_queue_id dbS 4 1 false
       = .error (.userIsNotWorkspaceAdmin, dbS) ∧
     websocket_register dbS [] 4 1 { id := 9, alive := true }
       = .error .userIsNotWorkspaceAdmin) ∧
    httpStatus .userIsNotWorkspaceAdmin = 403 := by
  have h1 := (authorization_gating dbS 2).1 1 { id := 1, workspace_id := 1 }
    { user_id := 2, workspace_id := 1, is_admin := false }
    { id := 1, subject_id := 1, members_can_freeze := false }
    (by rfl) (by rfl) (by rfl) (by rfl)
  have h2 := (authorization_gating dbC7 1).2.1 1 { id := 1, workspace_id := 1 }
    (by rfl) (by rfl) (by rfl) true
  have h3 := (authorization_gating dbS 4).2.2.1 1
    { id := 1, subject_id := 1, members_can_freeze := false }
    { id := 1, workspace_id := 1 } (by rfl) (by rfl) (by rfl)
  exact ⟨⟨h1.1 { members_can_freeze := some true }, h1.2⟩, h2,
         ⟨h3.1, h3.2.1, h3.2.2.1 false, h3.2.2.2 [] { id := 9, alive := true }⟩, rfl⟩

/-- Registry with two connections on queue 1: connection 1 already dead,
connection 2 alive. -/
def regC8 : Registry := [(1, [{ id := 1, alive := false }, { id := 2, alive := true }])]

/-- C8 counterexample: connection 2 is registered and alive for queue 1,
but because the dead connection 1 precedes it in the loop of
`ConnectionManager.broadcast` (api/queue_websocket.py lines 62-75, no
try/except around `send_text`), the raised send error aborts the loop: the
delivery log is empty — connection 2 never receives the payload — refuting
the claim that a failed delivery is skipped without preventing delivery to
the remaining connections. -/
theorem broadcast_aborts_after_dead_connection :
    registry_get regC8 1
      = some [{ id := 1, alive := false }, { id := 2, alive := true }] ∧
    broadcast regC8 "snapshot" 1 = ([], true) :=
  ⟨rfl, rfl⟩

/-- Delivery log of the broadcast loop: the alive prefix, each delivery the
same serialized payload; the error flag is set as soon as any connection in
the list is dead. -/
theorem broadcast_loop_eq (payload : String) (conns : List Conn) :
    broadcast_loop payload conns
      = ((conns.takeWhile (fun c => c.alive)).map (fun c => (c.id, payload)),
         conns.any (fun c => !c.alive)) := by
  induction conns with
  | nil => rfl
  | cons c cs ih =>
    unfold broadcast_loop
    by_cases hc : c.alive
    · rw [if_pos hc, ih]
      simp [List.takeWhile_cons, hc]
    · rw [if_neg hc]
      have hc' : c.alive = false := by simpa using hc
      simp [List.takeWhile_cons, hc', List.any_cons]

/-- C8 as amended: `broadcast` is a no-op for an unregistered queue id;
for a registered one it serializes the payload once and attempts delivery in
registration order, delivering the identical payload to every connection
before the first dead one; a dead connection's send raises, aborting
delivery to every connection after it, and the error escapes exactly when
some registered connection is dead. -/
theorem broadcast_delivery_stops_at_dead_conn (reg : Registry) (payload : String)
    (queue_id : Nat) :
    (registry_get reg queue_id = none → broadcast reg payload queue_id = ([], false)) ∧
    (∀ conns, registry_get reg queue_id = some conns →
      broadcast reg payload queue_id
        = ((conns.takeWhile (fun c => c.alive)).map (fun c => (c.id, payload)),
           conns.any (fun c => !c.alive))) := by
  constructor
  · intro h
    unfold broadcast
    rw [h]
  · intro conns h
    unfold broadcast
    rw [h]
    exact broadcast_loop_eq payload conns

theorem broadcast_delivery_stops_at_dead_conn_witness :
    registry_get regC8 1
      = some [{ id := 1, alive := false }, { id := 2, alive := true }] ∧
    broadcast regC8 "snapshot" 1
      = ((([{ id := 1, alive := false }, { id := 2, alive := true }] :
            List Conn).takeWhile (fun c => c.alive)).map (fun c => (c.id, "snapshot")),
         ([{ id := 1, alive := false }, { id := 2, alive := true }] :
            List Conn).any (fun c => !c.alive)) :=
  ⟨by rfl,
   (broadcast_delivery_stops_at_dead_conn regC8 "snapshot" 1).2
     [{ id := 1, alive := false }, { id := 2, alive := true }] (by rfl)⟩

/-- Tasks of a subject for which the user has no submission row, in table
order. -/
def unsubmitted_tasks (db : DB) (user_id subject_id : Nat) : List Task :=
  (get_tasks_by_subject_id db subject_id).filter
    (fun t => (get_submission_by_user_id_and_task_id db user_id t.id).isNone)

/-- C9: a committed leave with `leave_and_mark = true` creates exactly
one submission, for the task with the smallest id among the subject's tasks
the leaving user has no submission for; when the user has submitted every
task of the subject, no submission is created and the leave still succeeds. -/
theorem leave_and_mark_lowest_unsubmitted (db : DB) (uid qid : Nat)
    (queue : Queue) (m : QueueMember) (db' : DB)
    (hq : get_queue_by_id db qid = some queue)
    (h : leave_queue_by_user_id_and_queue_id db uid qid true = .ok (m, db')) :
    (unsubmitted_tasks db uid queue.subject_id = [] →
      db'.submissions = db.submissions) ∧
    (unsubmitted_tasks db uid queue.subject_id ≠ [] →
      ∃ t, t ∈ unsubmitted_tasks db uid queue.subject_id ∧
        (∀ t' ∈ unsubmitted_tasks db uid queue.subject_id, t.id ≤ t'.id) ∧
        db'.submissions = db.submissions ++ [{ user_id := uid, task_id := t.id }]) := by
  unfold leave_queue_by_user_id_and_queue_id at h
  match h1 : complex_queue_member_check db uid qid with
  | .error e => rw [h1] at h; exact absurd h (by simp)
  | .ok qm =>
    rw [h1] at h
    try dsimp only at h
    match h2 : get_queue_by_id (leave_renumber_db (leave_delete_db db qm) qid qm.position) qid with
    | none => rw [h2] at h; exact absurd h (by simp)
    | some queue2 =>
      rw [h2] at h
      try dsimp only at h
      have hqq : queue2 = queue := by
        have h2' : get_queue_by_id db qid = some queue2 := h2
        rw [hq] at h2'
        injection h2' with h2'
        exact h2'.symm
      rw [hqq] at h
      match h3 : mark_first_unsubmitted
          (leave_renumber_db (leave_delete_db db qm) qid qm.position) uid
          (sort_tasks_by_id (get_tasks_by_subject_id
            (leave_renumber_db (leave_delete_db db qm) qid qm.position) queue.subject_id)) with
      | .error e => rw [h3] at h; exact absurd h (by simp)
      | .ok odb =>
        rw [h3] at h
        try dsimp only at h
        injection h with h
        injection h with hqm hdb
        have hperm : (sort_tasks_by_id (get_tasks_by_subject_id
            (leave_renumber_db (leave_delete_db db qm) qid qm.position)
            queue.subject_id)).Perm (get_tasks_by_subject_id db queue.subject_id) :=
          List.perm_insertionSort _ _
        have hsorted : List.Pairwise (fun a b : Task => a.id ≤ b.id)
            (sort_tasks_by_id (get_tasks_by_subject_id
              (leave_renumber_db (leave_delete_db db qm) qid qm.position)
              queue.subject_id)) := by
          haveI : IsTotal Task (fun a b : Task => a.id ≤ b.id) :=
            ⟨fun a b => Nat.le_total a.id b.id⟩
          haveI : IsTrans Task (fun a b : Task => a.id ≤ b.id) :=
            ⟨fun _ _ _ hab hbc => Nat.le_trans hab hbc⟩
          exact List.sorted_insertionSort _ _
        rcases mark_first_unsubmitted_spec uid _ _ _ h3 with
          ⟨hnone, hall⟩ | ⟨t, l₁, l₂, hsplit, hl₁, hun, hsome⟩
        · subst hnone
          dsimp only [Option.getD] at hdb
          subst hdb
          have hall' : ∀ x ∈ sort_tasks_by_id (get_tasks_by_subject_id
              (leave_renumber_db (leave_delete_db db qm) qid qm.position)
              queue.subject_id),
              (get_submission_by_user_id_and_task_id db uid x.id).isSome = true := hall
          have hempty : unsubmitted_tasks db uid queue.subject_id = [] := by
            unfold unsubmitted_tasks
            rw [List.filter_eq_nil_iff]
            intro a ha
            have hsome := hall' a (hperm.mem_iff.mpr ha)
            intro hnone
            cases hx : get_submission_by_user_id_and_task_id db uid a.id with
            | none => rw [hx] at hsome; exact absurd hsome (by simp)
            | some s => rw [hx] at hnone; exact absurd hnone (by simp)
          exact ⟨fun _ => rfl, fun hne => absurd hempty hne⟩
        · subst hsome
          dsimp only [Option.getD] at hdb
          subst hdb
          have hl₁' : ∀ x ∈ l₁,
              (get_submission_by_user_id_and_task_id db uid x.id).isSome = true := hl₁
          have hun' : (get_submission_by_user_id_and_task_id db uid t.id).isNone
              = true := hun
          have htts : t ∈ sort_tasks_by_id (get_tasks_by_subject_id
              (leave_renumber_db (leave_delete_db db qm) qid qm.position)
              queue.subject_id) := by
            rw [hsplit]
            exact List.mem_append.mpr (Or.inr (List.mem_cons_self _ _))
          have htmem : t ∈ unsubmitted_tasks db uid queue.subject_id :=
            List.mem_filter.mpr ⟨hperm.mem_iff.mp htts, hun'⟩
          constructor
          · intro hemp
            rw [hemp] at htmem
            exact absurd htmem (by simp)
          · intro _
            refine ⟨t, htmem, ?_, rfl⟩
            intro t' ht'
            rcases List.mem_filter.mp ht' with ⟨ht'tasks, ht'none⟩
            have ht'ts := hperm.mem_iff.mpr ht'tasks
            rw [hsplit] at ht'ts
            rcases List.mem_append.mp ht'ts with hin1 | hin2
            · have hsome := hl₁' t' hin1
              cases hx : get_submission_by_user_id_and_task_id db uid t'.id with
              | none => rw [hx] at hsome; exact absurd hsome (by simp)
              | some s => rw [hx] at ht'none; exact absurd ht'none (by simp)
            · rcases List.mem_cons.mp hin2 with heq | hin2'
              · rw [heq]
              · rw [hsplit] at hsorted
                have hp := (List.pairwise_append.mp hsorted).2.1
                exact (List.pairwise_cons.mp hp).1 t' hin2'

theorem leave_and_mark_lowest_unsubmitted_witness :
    get_queue_by_id dbS 1
      = some { id := 1, subject_id := 1, members_can_freeze := false } ∧
    leave_queue_by_user_id_and_queue_id dbS 1 1 true
      = .ok ({ user_id := 1, queue_id := 1, position := 0, status := "active",
               entered_at := 5 },
             { dbS with
                queue_members :=
                  [{ user_id := 2, queue_id := 1, position := 0, status := "active",
                     entered_at := 6 },
                   { user_id := 3, queue_id := 1, position := 1, status := "frozen",
                     entered_at := 7 }],
                submissions := [{ user_id := 1, task_id := 2 },
                                { user_id := 1, task_id := 1 }] }) ∧
    (unsubmitted_tasks dbS 1 1 ≠ [] →
      ∃ t, t ∈ unsubmitted_tasks dbS 1 1 ∧
        (∀ t' ∈ unsubmitted_tasks dbS 1 1, t.id ≤ t'.id) ∧
        ({ dbS with
            queue_members :=
              [{ user_id := 2, queue_id := 1, position := 0, status := "active",
                 entered_at := 6 },
               { user_id := 3, queue_id := 1, position := 1, status := "frozen",
                 entered_at := 7 }],
            submissions := [{ user_id := 1, task_id := 2 },
                            { user_id := 1, task_id := 1 }] } : DB).submissions
          = dbS.submissions ++ [{ user_id := 1, task_id := t.id }]) :=
  ⟨by rfl, by rfl,
   (leave_and_mark_lowest_unsubmitted dbS 1 1
     { id := 1, subject_id := 1, members_can_freeze := false }
     { user_id := 1, queue_id := 1, position := 0, status := "active", entered_at := 5 }
     { dbS with
        queue_members :=
          [{ user_id := 2, queue_id := 1, position := 0, status := "active",
             entered_at := 6 },
           { user_id := 3, queue_id := 1, position := 1, status := "frozen",
             entered_at := 7 }],
        submissions := [{ user_id := 1, task_id := 2 },
                        { user_id := 1, task_id := 1 }] }
     (by rfl) (by rfl)).2⟩

end EQueue
